import Mathlib

/-!
Verification of the flow-dictation relay servers.

The repository contains several near-duplicate server variants:
  * src/unnamed/part_002 and the third file of src/unnamed/part_000:
    AssemblyAI streaming relay with a sample chunker (isReady flag,
    audioBuffer re-chunked into BUFFER_SIZE-sample frames);
  * the first file of src/unnamed/part_000: AssemblyAI streaming relay
    that forwards the raw client buffer (no chunker, and its upstream
    error handler does not clear the ready flag);
  * src/server.js (and the fourth file of part_000): AWS Transcribe
    Medical relay (isTranscribing and transcribeStream guards, a
    PassThrough audio stream, a trim guard on transcript results);
  * src/unnamed/part_001: an earlier AWS Transcribe Medical relay where
    isTranscribing is set only after the awaited session start resolves;
  * src/combined_server.js: HTTP-only variant (report generation and
    file-upload transcription).

Each server is single-threaded and event-driven, so every handler is
embedded as a pure step function from an explicit per-connection state
and an incoming event to a new state plus a list of emitted actions
(writes to the upstream audio stream, upstream session starts, messages
attempted on the client socket, and so on).
-/

/-! ## Audio chunker (src/unnamed/part_002, lines 55-141)

`BUFFER_SIZE = SAMPLE_RATE / 20` samples; the message handler converts
the binary frame to 16-bit samples, appends them to `audioBuffer`, and
while `audioBuffer.length >= BUFFER_SIZE` slices off one frame of
exactly `BUFFER_SIZE` samples and forwards it upstream. -/

/-- Sample rate of the relay (part_002, line 61). -/
def SAMPLE_RATE : Nat := 16000

/-- Frame size in samples: 50 ms of audio at 16 kHz (part_002, line 62). -/
def BUFFER_SIZE : Nat := SAMPLE_RATE / 20

/-- The while loop of the message handler (part_002, lines 111-122),
written with explicit fuel so that it is structural.  One iteration
slices `BUFFER_SIZE` samples off the front of the buffer and emits them
as one frame.  Fuel at least the buffer length is always enough because
every iteration removes at least one sample. -/
def drainAux : Nat → List Int → List (List Int) × List Int
  | 0, buf => ([], buf)
  | fuel + 1, buf =>
    if BUFFER_SIZE ≤ buf.length then
      let res := drainAux fuel (buf.drop BUFFER_SIZE)
      (buf.take BUFFER_SIZE :: res.1, res.2)
    else ([], buf)

/-- Run the chunker while loop to completion on a buffer: returns the
emitted frames (in order) and the remaining buffer. -/
def drainLoop (buf : List Int) : List (List Int) × List Int :=
  drainAux buf.length buf

theorem drainAux_spec (fuel : Nat) : ∀ buf : List Int, buf.length ≤ fuel →
    (drainAux fuel buf).1.flatten ++ (drainAux fuel buf).2 = buf ∧
    (∀ f ∈ (drainAux fuel buf).1, f.length = BUFFER_SIZE) ∧
    (drainAux fuel buf).2.length < BUFFER_SIZE := by
  have hB : BUFFER_SIZE = 800 := rfl
  induction fuel with
  | zero =>
    intro buf h
    have hnil : buf = [] := List.eq_nil_of_length_eq_zero (Nat.le_zero.mp h)
    subst hnil
    simp [drainAux, hB]
  | succ n ih =>
    intro buf h
    by_cases hb : BUFFER_SIZE ≤ buf.length
    · have hlen : (buf.drop BUFFER_SIZE).length ≤ n := by
        rw [List.length_drop]
        omega
      obtain ⟨ih1, ih2, ih3⟩ := ih (buf.drop BUFFER_SIZE) hlen
      simp only [drainAux, if_pos hb]
      refine ⟨?_, ?_, ih3⟩
      · simp only [List.flatten_cons, List.append_assoc, ih1,
          List.take_append_drop]
      · intro f hf
        rcases List.mem_cons.mp hf with hf | hf
        · subst hf
          rw [List.length_take]
          omega
        · exact ih2 f hf
    · simp only [drainAux, if_neg hb]
      refine ⟨by simp, by simp, by omega⟩

theorem drainAux_counts (fuel : Nat) : ∀ buf : List Int, buf.length ≤ fuel →
    (drainAux fuel buf).1.length = buf.length / BUFFER_SIZE ∧
    (drainAux fuel buf).2.length = buf.length % BUFFER_SIZE := by
  have hB : BUFFER_SIZE = 800 := rfl
  induction fuel with
  | zero =>
    intro buf h
    have hnil : buf = [] := List.eq_nil_of_length_eq_zero (Nat.le_zero.mp h)
    subst hnil
    simp [drainAux]
  | succ n ih =>
    intro buf h
    by_cases hb : BUFFER_SIZE ≤ buf.length
    · have hlen : (buf.drop BUFFER_SIZE).length ≤ n := by
        rw [List.length_drop]
        omega
      obtain ⟨ih1, ih2⟩ := ih (buf.drop BUFFER_SIZE) hlen
      rw [List.length_drop] at ih1 ih2
      have hstep : drainAux (n + 1) buf
          = (buf.take BUFFER_SIZE :: (drainAux n (buf.drop BUFFER_SIZE)).1,
             (drainAux n (buf.drop BUFFER_SIZE)).2) := by
        simp only [drainAux, if_pos hb]
      rw [hstep]
      constructor
      · show (drainAux n (buf.drop BUFFER_SIZE)).1.length + 1
            = buf.length / BUFFER_SIZE
        rw [ih1]
        rw [hB] at hb ⊢
        omega
      · show (drainAux n (buf.drop BUFFER_SIZE)).2.length
            = buf.length % BUFFER_SIZE
        rw [ih2]
        rw [hB] at hb ⊢
        omega
    · have hstep : drainAux (n + 1) buf = ([], buf) := by
        simp only [drainAux, if_neg hb]
      rw [hstep]
      constructor
      · show (0 : Nat) = buf.length / BUFFER_SIZE
        rw [hB] at hb ⊢
        omega
      · show buf.length = buf.length % BUFFER_SIZE
        rw [hB] at hb ⊢
        omega

theorem drainLoop_spec (buf : List Int) :
    (drainLoop buf).1.flatten ++ (drainLoop buf).2 = buf ∧
    (∀ f ∈ (drainLoop buf).1, f.length = BUFFER_SIZE) ∧
    (drainLoop buf).2.length < BUFFER_SIZE :=
  drainAux_spec buf.length buf (Nat.le_refl _)

theorem drainLoop_counts (buf : List Int) :
    (drainLoop buf).1.length = buf.length / BUFFER_SIZE ∧
    (drainLoop buf).2.length = buf.length % BUFFER_SIZE :=
  drainAux_counts buf.length buf (Nat.le_refl _)

/-- State of one chunker run: the frames emitted so far and the samples
still buffered (the `audioBuffer` variable of part_002). -/
structure ChunkerRun where
  emitted : List (List Int)
  audioBuffer : List Int
  deriving Repr, DecidableEq

/-- One append of a block of samples, as performed by the part_002
message handler once the frame is decoded: extend the buffer and run
the while loop. -/
def pushSamples (st : ChunkerRun) (samples : List Int) : ChunkerRun :=
  let r := drainLoop (st.audioBuffer ++ samples)
  ChunkerRun.mk (st.emitted ++ r.1) r.2

/-- Run the chunker from the initial empty state over a sequence of
appended sample blocks. -/
def runChunker (blocks : List (List Int)) : ChunkerRun :=
  blocks.foldl pushSamples (ChunkerRun.mk [] [])

theorem flatten_length_of_uniform (L : List (List Int)) (k : Nat)
    (h : ∀ f ∈ L, f.length = k) : L.flatten.length = L.length * k := by
  induction L with
  | nil => simp
  | cons a t ih =>
    simp only [List.flatten_cons, List.length_append, List.length_cons]
    rw [h a (by simp), ih (fun f hf => h f (by simp [hf]))]
    ring

theorem runChunker_invariant (blocks : List (List Int)) :
    ∀ st : ChunkerRun, st.audioBuffer.length < BUFFER_SIZE →
    (∀ f ∈ st.emitted, f.length = BUFFER_SIZE) →
    ((blocks.foldl pushSamples st).emitted.flatten ++
        (blocks.foldl pushSamples st).audioBuffer
      = st.emitted.flatten ++ st.audioBuffer ++ blocks.flatten) ∧
    (∀ f ∈ (blocks.foldl pushSamples st).emitted, f.length = BUFFER_SIZE) ∧
    (blocks.foldl pushSamples st).audioBuffer.length < BUFFER_SIZE := by
  induction blocks with
  | nil => intro st h1 h2; exact ⟨by simp, h2, h1⟩
  | cons b t ih =>
    intro st h1 h2
    obtain ⟨d1, d2, d3⟩ := drainLoop_spec (st.audioBuffer ++ b)
    have hstep : List.foldl pushSamples st (b :: t)
        = List.foldl pushSamples (pushSamples st b) t := rfl
    have hb1 : (pushSamples st b).audioBuffer.length < BUFFER_SIZE := d3
    have hb2 : ∀ f ∈ (pushSamples st b).emitted, f.length = BUFFER_SIZE := by
      intro f hf
      rcases List.mem_append.mp hf with hf | hf
      · exact h2 f hf
      · exact d2 f hf
    obtain ⟨i1, i2, i3⟩ := ih (pushSamples st b) hb1 hb2
    rw [hstep]
    refine ⟨?_, i2, i3⟩
    rw [i1]
    show (st.emitted ++ (drainLoop (st.audioBuffer ++ b)).1).flatten ++
        (drainLoop (st.audioBuffer ++ b)).2 ++ t.flatten
      = st.emitted.flatten ++ st.audioBuffer ++ (b :: t).flatten
    have key : (drainLoop (st.audioBuffer ++ b)).1.flatten ++
        ((drainLoop (st.audioBuffer ++ b)).2 ++ t.flatten)
        = st.audioBuffer ++ (b ++ t.flatten) := by
      rw [← List.append_assoc, d1, List.append_assoc]
    simp only [List.flatten_append, List.flatten_cons, List.append_assoc, key]

/-- C1: for every sequence of appended sample blocks totalling N
samples, the chunker (frame size 800 = 16000/20) emits exactly
floor (N / 800) frames, each of exactly 800 samples, and retains a
buffer of exactly N mod 800 samples; appending 1600 samples at once
emits exactly 2 frames with an empty remainder. -/
theorem chunker_frames_spec (blocks : List (List Int)) :
    (runChunker blocks).emitted.length = blocks.flatten.length / BUFFER_SIZE ∧
    (∀ f ∈ (runChunker blocks).emitted, f.length = BUFFER_SIZE) ∧
    (runChunker blocks).audioBuffer.length = blocks.flatten.length % BUFFER_SIZE ∧
    BUFFER_SIZE = SAMPLE_RATE / 20 ∧ BUFFER_SIZE = 800 ∧
    (runChunker [List.replicate 1600 (0 : Int)]).emitted.length = 2 ∧
    (runChunker [List.replicate 1600 (0 : Int)]).audioBuffer = [] := by
  have hB : BUFFER_SIZE = 800 := rfl
  have main : ∀ bs : List (List Int),
      (runChunker bs).emitted.length = bs.flatten.length / BUFFER_SIZE ∧
      (∀ f ∈ (runChunker bs).emitted, f.length = BUFFER_SIZE) ∧
      (runChunker bs).audioBuffer.length = bs.flatten.length % BUFFER_SIZE := by
    intro bs
    obtain ⟨h1, h2, h3⟩ := runChunker_invariant bs (ChunkerRun.mk [] [])
      (by simp [hB]) (by simp)
    have h1' : (runChunker bs).emitted.flatten ++ (runChunker bs).audioBuffer
        = bs.flatten := by simpa [runChunker] using h1
    have h2' : ∀ f ∈ (runChunker bs).emitted, f.length = BUFFER_SIZE := h2
    have h3' : (runChunker bs).audioBuffer.length < BUFFER_SIZE := h3
    have hflat : (runChunker bs).emitted.flatten.length
        = (runChunker bs).emitted.length * BUFFER_SIZE :=
      flatten_length_of_uniform _ _ h2'
    have hlen : (runChunker bs).emitted.length * BUFFER_SIZE
        + (runChunker bs).audioBuffer.length = bs.flatten.length := by
      have hc := congrArg List.length h1'
      rw [List.length_append, hflat] at hc
      exact hc
    refine ⟨?_, h2', ?_⟩
    · rw [hB] at hlen h3' ⊢
      omega
    · rw [hB] at hlen h3' ⊢
      omega
  obtain ⟨g1, g2, g3⟩ := main blocks
  obtain ⟨c1, _, c3⟩ := main [List.replicate 1600 (0 : Int)]
  have hc : ([List.replicate 1600 (0 : Int)]).flatten.length = 1600 := by
    rw [List.flatten_cons, List.flatten_nil, List.append_nil,
      List.length_replicate]
  refine ⟨g1, g2, g3, rfl, rfl, ?_, ?_⟩
  · rw [c1, hc, hB]
  · refine List.eq_nil_of_length_eq_zero ?_
    rw [c3, hc, hB]

/-! ## Binary frames and 16-bit sample decoding

The handler converts the received Buffer to an Int16Array:
`new Int16Array(message.buffer, message.byteOffset, message.byteLength / 2)`
(part_002, line 105).  The length argument goes through ToIndex, which
truncates, so a trailing odd byte is ignored: the view holds exactly
floor (byteLength / 2) 16-bit little-endian signed samples.  The
constructor also requires the view byteOffset to be a multiple of 2 and
throws a RangeError otherwise; that fault path, and the engine cap on
the spread arguments of `audioBuffer.push(...samples)`, are modelled in
int16ArrayView and pushSpread below. -/

/-- One signed 16-bit little-endian sample from two bytes. -/
def toInt16 (lo hi : Nat) : Int :=
  let u := lo % 256 + 256 * (hi % 256)
  if u < 32768 then (u : Int) else (u : Int) - 65536

/-- Decode the byte content of a 2-aligned Int16Array view:
consecutive little-endian pairs, a trailing odd byte ignored.  The
alignment check of the constructor is in int16ArrayView. -/
def bytesToSamples : List Nat → List Int
  | lo :: hi :: rest => toInt16 lo hi :: bytesToSamples rest
  | _ => []

theorem bytesToSamples_length : ∀ bs : List Nat,
    (bytesToSamples bs).length = bs.length / 2
  | [] => by simp [bytesToSamples]
  | [b] => by simp [bytesToSamples]
  | lo :: hi :: rest => by
    simp only [bytesToSamples, List.length_cons]
    rw [bytesToSamples_length rest]
    omega

/-- JavaScript String.prototype.trim, as applied to transcript text:
drop leading and trailing whitespace. -/
def jsTrim (s : String) : String :=
  String.mk (((s.data.dropWhile Char.isWhitespace).reverse.dropWhile
    Char.isWhitespace).reverse)

/-- A JSON message the server sends on the client WebSocket: either a
transcript message with text, is_final flag and optional confidence, or
an error message. -/
inductive OutMsg where
  | transcriptMsg (text : String) (isFinal : Bool) (confidence : Option Nat)
  | errorMsg (message : String)
  deriving Repr, DecidableEq

/-- A message received on the client WebSocket: a binary audio frame or
a text frame (the handlers only act on Buffers). -/
inductive ClientMsg where
  | binary (bytes : List Nat)
  | text (s : String)
  deriving Repr, DecidableEq

/-- ws send semantics: a send attempted on a socket that is no longer
open is silently discarded by the library and raises nothing, so a
message is delivered only when the connection is open. -/
def wsDeliver (isOpen : Bool) (attempts : List OutMsg) : List OutMsg :=
  if isOpen then attempts else []

/-! ## AssemblyAI relay with chunker (src/unnamed/part_002, lines 55-141) -/

/-- Observable actions of the AssemblyAI relay: forwarding one chunked
frame upstream (transcriber.sendAudio of a re-chunked buffer),
forwarding a raw buffer upstream (first part_000 relay), attempting a
send on the client socket, and closing the upstream transcriber. -/
inductive AAIAction where
  | sendAudio (frame : List Int)
  | sendAudioRaw (bytes : List Nat)
  | sendClient (m : OutMsg)
  | closeUpstream
  deriving Repr, DecidableEq

/-- Per-connection state of the part_002 relay: the isReady flag, the
transcriber reference (null or not), and the sample queue. -/
structure AAIState where
  isReady : Bool
  transcriberSome : Bool
  audioBuffer : List Int
  deriving Repr, DecidableEq

/-- The state of the connection right after the upstream session opened:
ready, transcriber set, empty sample queue. -/
def aaiReadyInit : AAIState := AAIState.mk true true []

/-- Events dispatched on one part_002 connection: upstream open, turn,
error and close callbacks, plus client messages and the client closing. -/
inductive AAIEvent where
  | opened
  | turn (transcript : String) (endOfTurn : Bool)
  | upstreamError (message : String)
  | upstreamClosed
  | clientMessage (m : ClientMsg)
  | clientClose
  deriving Repr, DecidableEq

/-- Result of one handler run: new state, actions emitted in order, and
whether a sendAudio error was caught and logged inside the handler. -/
structure AAIStepRes where
  state : AAIState
  actions : List AAIAction
  errLogged : Bool
  deriving Repr, DecidableEq

/-- The sendAudio calls of the while loop (part_002, lines 117-121):
each chunk is sent inside try/catch; when the send throws, the error is
logged to the console and the loop continues, producing no action and
no client message.  `sendOk` says whether transcriber.sendAudio throws. -/
def sendChunks (sendOk : Bool) (chunks : List (List Int)) :
    List AAIAction × Bool :=
  if sendOk then (chunks.map AAIAction.sendAudio, false)
  else ([], !chunks.isEmpty)

/-- The part_002 client message handler (lines 101-123) on its
non-faulting domain: return unless the message is a Buffer, the session
is ready and the transcriber exists; otherwise decode samples, extend
the buffer and drain it in BUFFER_SIZE frames.  This total model is the
restriction of aaiHandleMessageFallible below to a 2-aligned buffer
view whose decoded frame is below the engine spread-argument cap (see
aaiHandleMessageFallible_refines). -/
def aaiHandleClientMessage (sendOk : Bool) (st : AAIState) (m : ClientMsg) :
    AAIStepRes :=
  match m with
  | ClientMsg.text _ => AAIStepRes.mk st [] false
  | ClientMsg.binary bytes =>
    if st.isReady = false ∨ st.transcriberSome = false then
      AAIStepRes.mk st [] false
    else
      let r := drainLoop (st.audioBuffer ++ bytesToSamples bytes)
      let s := sendChunks sendOk r.1
      AAIStepRes.mk (AAIState.mk st.isReady st.transcriberSome r.2) s.1 s.2

/-- One event step of the part_002 relay (lines 55-141): the open
callback sets isReady; the turn callback forwards a transcript message
to the client; the error callback clears isReady and sends an error
message; the close callback clears isReady; client close clears the
state and closes the transcriber. -/
def aaiStep (sendOk : Bool) (st : AAIState) (e : AAIEvent) : AAIStepRes :=
  match e with
  | AAIEvent.opened =>
    AAIStepRes.mk (AAIState.mk true st.transcriberSome st.audioBuffer) [] false
  | AAIEvent.turn t eot =>
    AAIStepRes.mk st [AAIAction.sendClient (OutMsg.transcriptMsg t eot none)]
      false
  | AAIEvent.upstreamError msg =>
    AAIStepRes.mk (AAIState.mk false st.transcriberSome st.audioBuffer)
      [AAIAction.sendClient (OutMsg.errorMsg msg)] false
  | AAIEvent.upstreamClosed =>
    AAIStepRes.mk (AAIState.mk false st.transcriberSome st.audioBuffer) [] false
  | AAIEvent.clientMessage m => aaiHandleClientMessage sendOk st m
  | AAIEvent.clientClose =>
    AAIStepRes.mk (AAIState.mk false st.transcriberSome [])
      (if st.transcriberSome then [AAIAction.closeUpstream] else []) false

/-- The Int16Array construction on the delivered buffer view
(part_002, line 105): the constructor throws a RangeError when the view
byteOffset is not a multiple of 2; otherwise the view decodes
floor (byteLength / 2) little-endian samples. -/
def int16ArrayView (byteOffset : Nat) (bytes : List Nat) :
    Except String (List Int) :=
  if byteOffset % 2 = 0 then Except.ok (bytesToSamples bytes)
  else Except.error
    "RangeError: start offset of Int16Array should be a multiple of 2"

/-- `audioBuffer.push(...samples)` (part_002, line 108) spreads the
decoded samples as call arguments; engines cap the number of arguments
of one call and throw a RangeError past the cap.  The cap is
engine-dependent, so it is the `spreadLimit` parameter here. -/
def pushSpread (spreadLimit : Nat) (buf samples : List Int) :
    Except String (List Int) :=
  if samples.length ≤ spreadLimit then Except.ok (buf ++ samples)
  else Except.error "RangeError: too many arguments"

/-- The part_002 client message handler (lines 101-123) with its
uncaught error paths explicit.  The guard returns before any decode;
on the ready path the Int16Array construction (alignment) and the
spread push (argument cap) run outside the try/catch, so their errors
escape the handler uncaught; only transcriber.sendAudio is wrapped in
try/catch, its errors logged.  `byteOffset` is the view offset of the
delivered Buffer into its underlying ArrayBuffer. -/
def aaiHandleMessageFallible (spreadLimit : Nat) (sendOk : Bool)
    (st : AAIState) (byteOffset : Nat) (m : ClientMsg) :
    Except String AAIStepRes :=
  match m with
  | ClientMsg.text _ => Except.ok (AAIStepRes.mk st [] false)
  | ClientMsg.binary bytes =>
    if st.isReady = false ∨ st.transcriberSome = false then
      Except.ok (AAIStepRes.mk st [] false)
    else
      match int16ArrayView byteOffset bytes with
      | Except.error e => Except.error e
      | Except.ok samples =>
        match pushSpread spreadLimit st.audioBuffer samples with
        | Except.error e => Except.error e
        | Except.ok buf =>
          let r := drainLoop buf
          let snd := sendChunks sendOk r.1
          Except.ok (AAIStepRes.mk
            (AAIState.mk st.isReady st.transcriberSome r.2) snd.1 snd.2)

/-- On the non-faulting domain (2-aligned buffer view, decoded frame
below the spread cap) the fallible handler agrees with the total
handler model used by the rest of the development. -/
theorem aaiHandleMessageFallible_refines (spreadLimit : Nat)
    (sendOk : Bool) (st : AAIState) (byteOffset : Nat) (m : ClientMsg)
    (ha : byteOffset % 2 = 0)
    (hl : ∀ bytes, m = ClientMsg.binary bytes →
      (bytesToSamples bytes).length ≤ spreadLimit) :
    aaiHandleMessageFallible spreadLimit sendOk st byteOffset m
      = Except.ok (aaiHandleClientMessage sendOk st m) := by
  cases m with
  | text t => rfl
  | binary bytes =>
    by_cases hg : st.isReady = false ∨ st.transcriberSome = false
    · simp [aaiHandleMessageFallible, aaiHandleClientMessage, hg]
    · simp [aaiHandleMessageFallible, aaiHandleClientMessage, hg,
        int16ArrayView, ha, pushSpread, hl bytes rfl]

/-! ## AssemblyAI relay without chunker (src/unnamed/part_000, lines 56-123)

This first relay of part_000 forwards the raw buffer with
transcriber.sendAudio(message) and its upstream error handler only
sends the error message to the client: it does not clear
isTranscriberReady and does not close the transcriber. -/

/-- Per-connection state of the first part_000 relay. -/
structure V1State where
  isTranscriberReady : Bool
  transcriberSome : Bool
  deriving Repr, DecidableEq

/-- Connection state before the upstream open callback has fired. -/
def v1Init : V1State := V1State.mk false true

/-- One event step of the first part_000 relay (lines 56-123). -/
def v1Step (st : V1State) (e : AAIEvent) : V1State × List AAIAction :=
  match e with
  | AAIEvent.opened => (V1State.mk true st.transcriberSome, [])
  | AAIEvent.turn t eot =>
    (st, [AAIAction.sendClient (OutMsg.transcriptMsg t eot none)])
  | AAIEvent.upstreamError msg =>
    (st, [AAIAction.sendClient (OutMsg.errorMsg msg)])
  | AAIEvent.upstreamClosed => (V1State.mk false st.transcriberSome, [])
  | AAIEvent.clientMessage (ClientMsg.binary bytes) =>
    if st.transcriberSome ∧ st.isTranscriberReady then
      (st, [AAIAction.sendAudioRaw bytes])
    else (st, [])
  | AAIEvent.clientMessage (ClientMsg.text _) => (st, [])
  | AAIEvent.clientClose =>
    (V1State.mk false st.transcriberSome,
     if st.transcriberSome then [AAIAction.closeUpstream] else [])

/-! ## AWS Transcribe Medical relay (src/server.js, lines 238-382)

The message handler starts a session on the first buffer: it sets
isTranscribing and increments sessionCount at once, creates the
PassThrough audio stream, writes the first buffer into it and then
awaits transcribeClient.send.  Any buffer arriving while a session is
active or being established is written into the existing audio stream.
The background result loop forwards transcript results to the client,
guarded by the readyState check and the trim guard. -/

/-- One result of a TranscriptEvent (server.js, lines 289-321):
`IsPartial`, the text of `Alternatives[0].Transcript` and the optional
confidence of `Alternatives[0].Items?.[0]?.Confidence`. -/
structure TResult where
  IsPartial : Bool
  transcript : String
  confidence : Option Nat
  deriving Repr, DecidableEq

/-- Observable actions of the AWS relay: issuing the
StartMedicalStreamTranscriptionCommand, writing a buffer into the
PassThrough audio stream, attempting a send on the client socket, and
ending the audio stream. -/
inductive AwsAction where
  | startSession
  | writeAudio (bytes : List Nat)
  | sendClient (m : OutMsg)
  | endAudioStream
  deriving Repr, DecidableEq

/-- Per-connection state of the server.js relay: the four connection
variables plus whether the client socket is still open.  The audio
stream is the queue of buffers written into the PassThrough and not yet
consumed upstream; none models a null audioStream. -/
structure AwsState where
  transcribeStreamSome : Bool
  audioStream : Option (List (List Nat))
  isTranscribing : Bool
  sessionCount : Nat
  clientOpen : Bool
  deriving Repr, DecidableEq

/-- Fresh connection state (server.js, lines 238-244). -/
def awsInit : AwsState := AwsState.mk false none false 0 true

/-- Events dispatched on one server.js connection: a client message,
resolution or rejection of the awaited session start, a batch of
transcript results from the background loop, an error thrown by the
result stream (its catch block, lines 325-329), the end of the result
stream (its finally block), the client closing, and a socket error. -/
inductive AwsEvent where
  | clientMessage (m : ClientMsg)
  | handshakeOk
  | handshakeErr (message : String)
  | transcriptResults (rs : List TResult)
  | streamError (message : String)
  | streamEnd
  | clientClose
  | wsError
  deriving Repr, DecidableEq

/-- Forwarding of one transcript result (server.js, lines 291-321):
final and non-final results are sent as transcript messages, both only
when the text is a non-empty string whose trim is also non-empty, and
only when the client socket readyState is OPEN.  The confidence field
is attached only to final results. -/
def processResult (clientOpen : Bool) (r : TResult) : List AwsAction :=
  if r.IsPartial = false then
    if r.transcript ≠ "" ∧ jsTrim r.transcript ≠ "" then
      if clientOpen then
        [AwsAction.sendClient (OutMsg.transcriptMsg r.transcript true
          r.confidence)]
      else []
    else []
  else
    if r.transcript ≠ "" ∧ jsTrim r.transcript ≠ "" then
      if clientOpen then
        [AwsAction.sendClient (OutMsg.transcriptMsg r.transcript false none)]
      else []
    else []

/-- The for loop over `event.TranscriptEvent.Transcript.Results`
(server.js, lines 291-322), forwarding results in order. -/
def processResults (clientOpen : Bool) (rs : List TResult) : List AwsAction :=
  (rs.map (processResult clientOpen)).flatten

/-- One event step of the server.js relay (lines 238-382).  A
mid-stream error is only logged by the catch (unless it is an
AbortError it is printed to the console) and the finally block clears
isTranscribing and transcribeStream: no message is sent to the client
on that path (lines 325-334). -/
def awsStep (s : AwsState) (e : AwsEvent) : AwsState × List AwsAction :=
  match e with
  | AwsEvent.clientMessage (ClientMsg.text _) => (s, [])
  | AwsEvent.clientMessage (ClientMsg.binary b) =>
    if s.isTranscribing = false ∧ s.transcribeStreamSome = false then
      (AwsState.mk s.transcribeStreamSome (some [b]) true (s.sessionCount + 1)
        s.clientOpen,
       [AwsAction.writeAudio b, AwsAction.startSession])
    else if s.audioStream.isSome ∧ s.isTranscribing then
      (AwsState.mk s.transcribeStreamSome (some (s.audioStream.getD [] ++ [b]))
        s.isTranscribing s.sessionCount s.clientOpen,
       [AwsAction.writeAudio b])
    else (s, [])
  | AwsEvent.handshakeOk =>
    (AwsState.mk true s.audioStream s.isTranscribing s.sessionCount
      s.clientOpen, [])
  | AwsEvent.handshakeErr msg =>
    (AwsState.mk false s.audioStream false s.sessionCount s.clientOpen,
     if s.clientOpen then
       [AwsAction.sendClient (OutMsg.errorMsg
         ("Transcription error: " ++ msg))]
     else [])
  | AwsEvent.transcriptResults rs => (s, processResults s.clientOpen rs)
  | AwsEvent.streamError _ =>
    (AwsState.mk false s.audioStream false s.sessionCount s.clientOpen, [])
  | AwsEvent.streamEnd =>
    (AwsState.mk false s.audioStream false s.sessionCount s.clientOpen, [])
  | AwsEvent.clientClose =>
    (AwsState.mk false none false s.sessionCount false,
     if s.audioStream.isSome then [AwsAction.endAudioStream] else [])
  | AwsEvent.wsError =>
    (AwsState.mk false none false s.sessionCount s.clientOpen,
     if s.audioStream.isSome then [AwsAction.endAudioStream] else [])

/-! ## Earlier AWS Transcribe relay (src/unnamed/part_001, lines 111-229)

In this variant the start branch is guarded only by `!isTranscribing`,
and `isTranscribing = true` is assigned only after the awaited
`transcribeClient.send(command)` resolves (line 147).  The synchronous
part of the start branch, run for every message that sees
`isTranscribing === false`, creates a new PassThrough and issues the
start command. -/

/-- Per-connection state of the part_001 relay. -/
structure P001State where
  isTranscribing : Bool
  audioStreamSome : Bool
  transcribeStreamSome : Bool
  deriving Repr, DecidableEq

/-- Fresh connection state (part_001, lines 111-116). -/
def p001Init : P001State := P001State.mk false false false

/-- One event step of the part_001 relay message handler and lifecycle
(lines 118-228).  A binary message with isTranscribing still false runs
the start branch up to its await: a new audio stream is created and a
new upstream start command is issued.  Only the handshake resolution
sets isTranscribing. -/
def p001Step (s : P001State) (e : AwsEvent) : P001State × List AwsAction :=
  match e with
  | AwsEvent.clientMessage (ClientMsg.text _) => (s, [])
  | AwsEvent.clientMessage (ClientMsg.binary b) =>
    if s.isTranscribing = false then
      (P001State.mk false true s.transcribeStreamSome, [AwsAction.startSession])
    else if s.audioStreamSome then (s, [AwsAction.writeAudio b])
    else (s, [])
  | AwsEvent.handshakeOk => (P001State.mk true s.audioStreamSome true, [])
  | AwsEvent.handshakeErr msg =>
    (P001State.mk false s.audioStreamSome s.transcribeStreamSome,
     [AwsAction.sendClient (OutMsg.errorMsg ("Transcription error: " ++ msg))])
  | AwsEvent.transcriptResults rs => (s, processResults true rs)
  | AwsEvent.streamError msg =>
    (P001State.mk false s.audioStreamSome s.transcribeStreamSome,
     [AwsAction.sendClient (OutMsg.errorMsg ("Transcription error: " ++ msg))])
  | AwsEvent.streamEnd => (s, [])
  | AwsEvent.clientClose =>
    (P001State.mk false false false,
     if s.audioStreamSome then [AwsAction.endAudioStream] else [])
  | AwsEvent.wsError =>
    (P001State.mk false false s.transcribeStreamSome,
     if s.audioStreamSome then [AwsAction.endAudioStream] else [])

/-! ## Report generation endpoint (POST /api/generate-report)

All variants validate identically (server.js lines 386-392,
combined_server.js lines 41-48): `if (!findings) return 400` before any
backend call; a string field is falsy exactly when it is missing or
empty. -/

/-- Outcome of one report request: HTTP status, report body, error
body, and how many calls reached the text-generation backend. -/
structure ReportRes where
  status : Nat
  report : Option String
  errorField : Option String
  backendCalls : Nat
  deriving Repr, DecidableEq

/-- The POST /api/generate-report handler.  `findings` is the request
field (none when missing); `backendOk` and `backendText` describe the
behaviour of the one backend call, when reached. -/
def generateReportHandler (findings : Option String) (backendOk : Bool)
    (backendText : String) : ReportRes :=
  match findings with
  | none => ReportRes.mk 400 none (some "Findings are required") 0
  | some s =>
    if s = "" then ReportRes.mk 400 none (some "Findings are required") 0
    else if backendOk then ReportRes.mk 200 (some backendText) none 1
    else ReportRes.mk 500 none (some "Failed to generate report") 1

/-! ## Upload transcription endpoint (POST /api/transcribe)

part_002 lines 143-172 (same code in part_000): rename the multer temp
file to path + ".webm", transcribe, unlink the .webm file; the catch
re-checks both paths with existsSync and unlinks whichever exists.
combined_server.js lines 69-94: no rename; unlink on success, and on
failure unlink if the file still exists. -/

/-- Which of the two temp paths exist on disk: the original multer path
and its renamed .webm variant. -/
structure FSState where
  origExists : Bool
  webmExists : Bool
  deriving Repr, DecidableEq

/-- Outcome of one upload request: final on-disk state and HTTP status. -/
structure UploadRes where
  fs : FSState
  status : Nat
  deriving Repr, DecidableEq

/-- fs.renameSync(req.file.path, webmPath). -/
def renameToWebm (_ : FSState) : FSState := FSState.mk false true

/-- The catch block cleanup (part_002, lines 165-169): unlink each of
the two paths if existsSync reports it. -/
def cleanupCatch (fs : FSState) : FSState :=
  let fs1 := if fs.origExists then FSState.mk false fs.webmExists else fs
  if fs1.webmExists then FSState.mk fs1.origExists false else fs1

/-- The part_002 / part_000 upload handler on a request that received a
file.  `renameOk` and `transcribeOk` say whether fs.renameSync and the
batch transcription call succeed; a failure of either lands in the
catch block. -/
def transcribeUploadAAI (renameOk transcribeOk : Bool) : UploadRes :=
  let fs0 := FSState.mk true false
  if renameOk then
    let fs1 := renameToWebm fs0
    if transcribeOk then UploadRes.mk (FSState.mk fs1.origExists false) 200
    else UploadRes.mk (cleanupCatch fs1) 500
  else UploadRes.mk (cleanupCatch fs0) 500

/-- The combined_server.js upload handler on a request that received a
file: unlink after transcription; on failure unlink if the file still
exists (there is no .webm rename in this variant). -/
def transcribeUploadCombined (transcribeOk : Bool) : UploadRes :=
  let fs0 := FSState.mk true false
  if transcribeOk then UploadRes.mk (FSState.mk false fs0.webmExists) 200
  else
    UploadRes.mk (if fs0.origExists then FSState.mk false fs0.webmExists
      else fs0) 500

/-! ## Helper functions over action traces -/

/-- Is an AssemblyAI-relay action a send on the client socket. -/
def isSendClientAAI : AAIAction → Bool
  | AAIAction.sendClient _ => true
  | _ => false

/-- Is an AWS-relay action a send on the client socket. -/
def isSendClientAws : AwsAction → Bool
  | AwsAction.sendClient _ => true
  | _ => false

/-- Is an AWS-relay action the issuing of an upstream start command. -/
def isStartSession : AwsAction → Bool
  | AwsAction.startSession => true
  | _ => false

/-- The chunked frames forwarded upstream, in trace order. -/
def sentFrames (acts : List AAIAction) : List (List Int) :=
  acts.filterMap fun a => match a with
    | AAIAction.sendAudio f => some f
    | _ => none

/-- The transcript texts attempted on the client socket, in trace order. -/
def clientTexts (acts : List AwsAction) : List String :=
  acts.filterMap fun a => match a with
    | AwsAction.sendClient (OutMsg.transcriptMsg t _ _) => some t
    | _ => none

theorem sentFrames_append (a b : List AAIAction) :
    sentFrames (a ++ b) = sentFrames a ++ sentFrames b := by
  simp [sentFrames, List.filterMap_append]

theorem sentFrames_map (chunks : List (List Int)) :
    sentFrames (chunks.map AAIAction.sendAudio) = chunks := by
  induction chunks with
  | nil => rfl
  | cons c t ih =>
    show c :: sentFrames (t.map AAIAction.sendAudio) = c :: t
    rw [ih]

theorem clientTexts_append (a b : List AwsAction) :
    clientTexts (a ++ b) = clientTexts a ++ clientTexts b := by
  simp [clientTexts, List.filterMap_append]

theorem filter_sendClient_map_sendAudio (chunks : List (List Int)) :
    (chunks.map AAIAction.sendAudio).filter isSendClientAAI = [] := by
  induction chunks with
  | nil => rfl
  | cons c t ih => simp [isSendClientAAI, ih]

/-- A client message arriving on a ready part_002 connection with a
live transcriber: the handler drains the extended buffer and forwards
each full frame upstream. -/
theorem aai_ready_step (st : AAIState) (bytes : List Nat)
    (h1 : st.isReady = true) (h2 : st.transcriberSome = true) :
    aaiStep true st (AAIEvent.clientMessage (ClientMsg.binary bytes))
      = AAIStepRes.mk
          (AAIState.mk true true
            (drainLoop (st.audioBuffer ++ bytesToSamples bytes)).2)
          ((drainLoop (st.audioBuffer ++ bytesToSamples bytes)).1.map
            AAIAction.sendAudio)
          false := by
  simp [aaiStep, aaiHandleClientMessage, h1, h2, sendChunks]

/-- A run of the part_002 relay over a sequence of binary client
messages from a given state. -/
def aaiRunFrom (st : AAIState) : List (List Nat) → AAIState × List AAIAction
  | [] => (st, [])
  | bytes :: rest =>
    ((aaiRunFrom (aaiStep true st (AAIEvent.clientMessage
        (ClientMsg.binary bytes))).state rest).1,
     (aaiStep true st (AAIEvent.clientMessage
        (ClientMsg.binary bytes))).actions
       ++ (aaiRunFrom (aaiStep true st (AAIEvent.clientMessage
        (ClientMsg.binary bytes))).state rest).2)

/-- A run of the part_002 relay over binary client messages from the
ready state of a fresh session. -/
def aaiRunBinaries (msgs : List (List Nat)) : AAIState × List AAIAction :=
  aaiRunFrom aaiReadyInit msgs

theorem aaiRunFrom_spec (msgs : List (List Nat)) :
    ∀ st : AAIState, st.isReady = true → st.transcriberSome = true →
    ((sentFrames (aaiRunFrom st msgs).2).flatten
        ++ (aaiRunFrom st msgs).1.audioBuffer
      = st.audioBuffer ++ (msgs.map bytesToSamples).flatten) ∧
    (aaiRunFrom st msgs).1.isReady = true ∧
    (aaiRunFrom st msgs).1.transcriberSome = true := by
  induction msgs with
  | nil =>
    intro st h1 h2
    exact ⟨by simp [aaiRunFrom, sentFrames], h1, h2⟩
  | cons bytes rest ih =>
    intro st h1 h2
    have hstep := aai_ready_step st bytes h1 h2
    simp only [aaiRunFrom, hstep]
    obtain ⟨i1, i2, i3⟩ := ih
      (AAIState.mk true true
        (drainLoop (st.audioBuffer ++ bytesToSamples bytes)).2) rfl rfl
    dsimp only at i1
    refine ⟨?_, i2, i3⟩
    rw [sentFrames_append, sentFrames_map, List.flatten_append,
      List.map_cons, List.flatten_cons, List.append_assoc, i1,
      ← List.append_assoc, (drainLoop_spec (st.audioBuffer ++
        bytesToSamples bytes)).1, List.append_assoc]

theorem clientTexts_processResult (r : TResult) :
    clientTexts (processResult true r)
      = if r.transcript ≠ "" ∧ jsTrim r.transcript ≠ ""
        then [r.transcript] else [] := by
  cases h : r.IsPartial <;>
    by_cases hc : r.transcript ≠ "" ∧ jsTrim r.transcript ≠ "" <;>
      simp [processResult, clientTexts, h, hc]

theorem processResult_closed (r : TResult) : processResult false r = [] := by
  cases h : r.IsPartial <;>
    by_cases hc : r.transcript ≠ "" ∧ jsTrim r.transcript ≠ "" <;>
      simp [processResult, h, hc]

theorem processResults_closed (rs : List TResult) :
    processResults false rs = [] := by
  induction rs with
  | nil => rfl
  | cons r t ih =>
    show processResult false r ++ processResults false t = []
    rw [processResult_closed, ih]
    rfl

/-! ## Claim theorems -/

/-- C2 counterexample: in the server.js relay, an audio frame arriving
before the upstream handshake is confirmed (transcribeStreamSome still
false) is not dropped: the first frame is queued into the session audio
stream for later delivery and changes the state, and a second frame
arriving while the session is still being established is appended to
the same queue, so the pre-ready send is not a no-op and the frames are
queued, not dropped. -/
theorem aws_first_frame_queued :
    awsInit.transcribeStreamSome = false ∧
    (awsStep awsInit (AwsEvent.clientMessage
        (ClientMsg.binary [1, 2]))).1.audioStream = some [[1, 2]] ∧
    (awsStep awsInit (AwsEvent.clientMessage
        (ClientMsg.binary [1, 2]))).1 ≠ awsInit ∧
    (awsStep awsInit (AwsEvent.clientMessage
        (ClientMsg.binary [1, 2]))).1.transcribeStreamSome = false ∧
    (awsStep (awsStep awsInit (AwsEvent.clientMessage
        (ClientMsg.binary [1, 2]))).1 (AwsEvent.clientMessage
        (ClientMsg.binary [3, 4]))).1.audioStream
      = some [[1, 2], [3, 4]] := by
  refine ⟨rfl, rfl, ?_, rfl, rfl⟩
  decide

/-- C2 amended: in the AssemblyAI relays, a frame sent before the
session is ready is dropped with no state change, nothing queued and no
error; in the AWS relays, a frame arriving while a session is being
established or active is written into the session audio stream and
retained for delivery, with no error raised. -/
theorem preReady_drop_or_queue (st : AAIState) (bytes : List Nat)
    (sendOk : Bool) (h : st.isReady = false)
    (s : AwsState) (b : List Nat) (q : List (List Nat))
    (h1 : s.isTranscribing = true) (h2 : s.audioStream = some q) :
    aaiStep sendOk st (AAIEvent.clientMessage (ClientMsg.binary bytes))
      = AAIStepRes.mk st [] false ∧
    (awsStep s (AwsEvent.clientMessage (ClientMsg.binary b))).1.audioStream
      = some (q ++ [b]) ∧
    (awsStep s (AwsEvent.clientMessage (ClientMsg.binary b))).2
      = [AwsAction.writeAudio b] := by
  refine ⟨?_, ?_, ?_⟩
  · simp [aaiStep, aaiHandleClientMessage, h]
  · simp [awsStep, h1, h2]
  · simp [awsStep, h1, h2]

theorem preReady_drop_or_queue_witness :
    ((AAIState.mk false true []).isReady = false ∧
     (AwsState.mk false (some []) true 1 true).isTranscribing = true ∧
     (AwsState.mk false (some []) true 1 true).audioStream = some []) ∧
    (aaiStep true (AAIState.mk false true [])
        (AAIEvent.clientMessage (ClientMsg.binary [1, 2]))
      = AAIStepRes.mk (AAIState.mk false true []) [] false ∧
     (awsStep (AwsState.mk false (some []) true 1 true)
        (AwsEvent.clientMessage (ClientMsg.binary [3, 4]))).1.audioStream
      = some [[3, 4]] ∧
     (awsStep (AwsState.mk false (some []) true 1 true)
        (AwsEvent.clientMessage (ClientMsg.binary [3, 4]))).2
      = [AwsAction.writeAudio [3, 4]]) :=
  ⟨⟨rfl, rfl, rfl⟩, by
    have := preReady_drop_or_queue (AAIState.mk false true []) [1, 2] true rfl
      (AwsState.mk false (some []) true 1 true) [3, 4] [] rfl rfl
    simpa using this⟩

/-- C3: in the part_001 relay, two binary frames arriving before the
awaited session start resolves each run the start branch, issuing two
upstream start commands: a second start trigger while a session is
being established does create a second upstream session.  The server.js
relay sets its flags before the await, so the same two frames there
issue exactly one start command. -/
theorem p001_double_start :
    ((p001Step p001Init (AwsEvent.clientMessage
        (ClientMsg.binary [0, 0]))).2
      ++ (p001Step (p001Step p001Init (AwsEvent.clientMessage
            (ClientMsg.binary [0, 0]))).1
          (AwsEvent.clientMessage (ClientMsg.binary [0, 0]))).2).filter
        isStartSession
      = [AwsAction.startSession, AwsAction.startSession] ∧
    ((awsStep awsInit (AwsEvent.clientMessage (ClientMsg.binary [0, 0]))).2
      ++ (awsStep (awsStep awsInit (AwsEvent.clientMessage
            (ClientMsg.binary [0, 0]))).1
          (AwsEvent.clientMessage (ClientMsg.binary [0, 0]))).2).filter
        isStartSession
      = [AwsAction.startSession] := by
  constructor <;> decide

/-- C4 counterexample: two cited error paths falsify the claim as
stated.  In the first part_000 relay (lines 84-90) the upstream error
handler leaves the session live: after an error event the ready flag is
still set and a subsequent client audio frame is still forwarded
upstream, so the session that produced the error is not terminated and
accepts further audio.  In the server.js relay (lines 325-334) a
mid-stream error on an active session clears the session state but
emits no action at all: the affected client is not sent an error-typed
message. -/
theorem v1_error_keeps_forwarding :
    ((v1Step (v1Step v1Init AAIEvent.opened).1
        (AAIEvent.upstreamError "boom")).1.isTranscriberReady = true) ∧
    (v1Step (v1Step (v1Step v1Init AAIEvent.opened).1
        (AAIEvent.upstreamError "boom")).1
        (AAIEvent.clientMessage (ClientMsg.binary [1, 2]))).2
      = [AAIAction.sendAudioRaw [1, 2]] ∧
    (awsStep (AwsState.mk true (some [[5, 6]]) true 1 true)
        (AwsEvent.streamError "InternalFailureException")).2 = [] ∧
    (awsStep (AwsState.mk true (some [[5, 6]]) true 1 true)
        (AwsEvent.streamError "InternalFailureException")).1.isTranscribing
      = false ∧
    (awsStep (AwsState.mk true (some [[5, 6]]) true 1 true)
        (AwsEvent.streamError "InternalFailureException")).1.transcribeStreamSome
      = false := by
  refine ⟨?_, ?_, rfl, rfl, rfl⟩ <;> decide

/-- C4 amended: per variant, with no effect on any other connection.
In the part_002 relay an upstream error event sends an error-typed
message to the affected client and clears the ready flag, after which
any client audio frame is dropped without forwarding; the transcriber
is not closed, so a turn event arriving after the error is still
forwarded to the client (the relay does not itself stop further
transcript events).  In the first part_000 relay the error handler
sends the error message but leaves the connection state unchanged, so
the session keeps accepting audio.  In the server.js relay a
mid-stream error clears isTranscribing and transcribeStream and sends
nothing to the client. -/
theorem aai_error_terminates (st : AAIState) (msg : String)
    (bytes : List Nat) (sendOk sendOk2 sendOk3 : Bool)
    (t : String) (eot : Bool) (s : AwsState) (em : String) :
    (aaiStep sendOk st (AAIEvent.upstreamError msg)).state.isReady = false ∧
    (aaiStep sendOk st (AAIEvent.upstreamError msg)).actions
      = [AAIAction.sendClient (OutMsg.errorMsg msg)] ∧
    aaiStep sendOk2 (aaiStep sendOk st (AAIEvent.upstreamError msg)).state
        (AAIEvent.clientMessage (ClientMsg.binary bytes))
      = AAIStepRes.mk (aaiStep sendOk st (AAIEvent.upstreamError msg)).state
          [] false ∧
    aaiStep sendOk3 (aaiStep sendOk st (AAIEvent.upstreamError msg)).state
        (AAIEvent.turn t eot)
      = AAIStepRes.mk (aaiStep sendOk st (AAIEvent.upstreamError msg)).state
          [AAIAction.sendClient (OutMsg.transcriptMsg t eot none)] false ∧
    (v1Step (V1State.mk true true) (AAIEvent.upstreamError msg)).1
      = V1State.mk true true ∧
    (v1Step (V1State.mk true true) (AAIEvent.upstreamError msg)).2
      = [AAIAction.sendClient (OutMsg.errorMsg msg)] ∧
    (awsStep s (AwsEvent.streamError em)).1.isTranscribing = false ∧
    (awsStep s (AwsEvent.streamError em)).1.transcribeStreamSome = false ∧
    (awsStep s (AwsEvent.streamError em)).2 = [] := by
  refine ⟨rfl, rfl, ?_, rfl, rfl, rfl, rfl, rfl, rfl⟩
  simp [aaiStep, aaiHandleClientMessage]

/-- C5: the server.js relay attempts a send on the client socket only
while the client connection is open: once clientOpen is false, no event
of the relay produces a client send, and a send attempted on a closed
socket delivers nothing and raises nothing (ws drops it). -/
theorem closed_client_no_sends (s : AwsState) (e : AwsEvent)
    (h : s.clientOpen = false) (msgs : List OutMsg) :
    (awsStep s e).2.filter isSendClientAws = [] ∧
    wsDeliver false msgs = [] := by
  refine ⟨?_, rfl⟩
  cases e with
  | clientMessage m =>
    cases m with
    | text t => rfl
    | binary b =>
      by_cases h1 : s.isTranscribing = false ∧ s.transcribeStreamSome = false
      · simp [awsStep, h1, isSendClientAws]
      · by_cases h2 : s.audioStream.isSome ∧ s.isTranscribing
        · simp [awsStep, h1, h2, isSendClientAws]
        · simp [awsStep, h1, h2]
  | handshakeOk => rfl
  | handshakeErr m => simp [awsStep, h]
  | transcriptResults rs =>
    show (processResults s.clientOpen rs).filter isSendClientAws = []
    rw [h, processResults_closed]
    rfl
  | streamError m => rfl
  | streamEnd => rfl
  | clientClose =>
    by_cases h1 : s.audioStream.isSome <;>
      simp [awsStep, h1, isSendClientAws]
  | wsError =>
    by_cases h1 : s.audioStream.isSome <;>
      simp [awsStep, h1, isSendClientAws]

theorem closed_client_no_sends_witness :
    (AwsState.mk true (some []) true 1 false).clientOpen = false ∧
    ((awsStep (AwsState.mk true (some []) true 1 false)
        (AwsEvent.transcriptResults [TResult.mk false "hello" none])).2.filter
        isSendClientAws = [] ∧
     wsDeliver false [OutMsg.errorMsg "x"] = []) :=
  ⟨rfl, closed_client_no_sends (AwsState.mk true (some []) true 1 false)
    (AwsEvent.transcriptResults [TResult.mk false "hello" none]) rfl
    [OutMsg.errorMsg "x"]⟩

/-- C6: a report request whose findings field is missing or the empty
string is answered with HTTP 400 and an error body, and zero calls
reach the text-generation backend. -/
theorem missing_findings_400 (findings : Option String) (backendOk : Bool)
    (backendText : String)
    (h : findings = none ∨ findings = some "") :
    (generateReportHandler findings backendOk backendText).status = 400 ∧
    (generateReportHandler findings backendOk backendText).backendCalls = 0 ∧
    (generateReportHandler findings backendOk backendText).errorField
      = some "Findings are required" := by
  rcases h with h | h <;> subst h <;> simp [generateReportHandler]

theorem missing_findings_400_witness :
    ((none : Option String) = none ∨ (none : Option String) = some "") ∧
    ((generateReportHandler none true "report").status = 400 ∧
     (generateReportHandler none true "report").backendCalls = 0 ∧
     (generateReportHandler none true "report").errorField
       = some "Findings are required") :=
  ⟨Or.inl rfl, missing_findings_400 none true "report" (Or.inl rfl)⟩

/-- C7: for every upload request that received a file, neither the
multer temp file nor its renamed .webm variant exists on disk after the
handler returns, on the success path and on every failure path, in the
part_002 / part_000 handler and in the combined_server.js handler. -/
theorem upload_temp_file_deleted (renameOk transcribeOk tOk : Bool) :
    (transcribeUploadAAI renameOk transcribeOk).fs = FSState.mk false false ∧
    (transcribeUploadCombined tOk).fs = FSState.mk false false := by
  cases renameOk <;> cases transcribeOk <;> cases tOk <;> exact ⟨rfl, rfl⟩

/-- C8: within one session, the samples of the frames forwarded
upstream, concatenated in trace order and followed by the remaining
buffer, are exactly the concatenation of the sample blocks received
from the client, in order (FIFO); and the transcript texts attempted on
the client are exactly the received results with non-empty trimmed
text, in upstream order, with no reordering and no deduplication. -/
theorem fifo_ordering (msgs : List (List Nat)) (rs : List TResult) :
    ((sentFrames (aaiRunBinaries msgs).2).flatten
        ++ (aaiRunBinaries msgs).1.audioBuffer
      = (msgs.map bytesToSamples).flatten) ∧
    clientTexts (processResults true rs)
      = (rs.filter (fun r => decide (r.transcript ≠ "")
          && decide (jsTrim r.transcript ≠ ""))).map TResult.transcript := by
  constructor
  · have h := (aaiRunFrom_spec msgs aaiReadyInit rfl rfl).1
    simpa [aaiRunBinaries, aaiReadyInit] using h
  · induction rs with
    | nil => rfl
    | cons r t ih =>
      show clientTexts (processResult true r ++ processResults true t) = _
      rw [clientTexts_append, clientTexts_processResult, ih]
      by_cases h : r.transcript ≠ "" ∧ jsTrim r.transcript ≠ ""
      · simp [List.filter_cons, h.1, h.2]
      · rw [if_neg h]
        simp [List.filter_cons, h]

set_option maxRecDepth 20000 in
/-- C9 counterexample: when transcriber.sendAudio throws while
forwarding a full frame (2-aligned view, frame below the spread cap),
the part_002 message handler catches and logs the error but emits no
action at all, and in particular no error-typed client message: not
every error is converted to a client-visible error shape. -/
theorem send_error_not_surfaced :
    aaiHandleMessageFallible 65535 false aaiReadyInit 0
        (ClientMsg.binary (List.replicate 1600 0))
      = Except.ok (AAIStepRes.mk aaiReadyInit [] true) := by
  rfl

/-- C9 amended: the part_002 message handler is not total.  On a
2-aligned buffer view whose decoded frame is below the engine spread
cap it does not fault: a frame with odd byte length has its trailing
byte ignored (exactly floor of half the byte length samples are
decoded, all accounted for by the forwarded frames plus the retained
buffer).  But on a view with an odd byteOffset the Int16Array
construction throws an uncaught RangeError, and on a frame whose
decoded sample count exceeds the spread cap the buffer push throws an
uncaught RangeError: both run outside the try/catch and escape the
handler.  Errors the handler does catch (transcriber.sendAudio) are
logged only: no outcome of message handling ever contains a
client-visible message, so no caught error is converted to a
client-visible error shape. -/
theorem handler_no_fault_truncates (spreadLimit : Nat) (st : AAIState)
    (byteOffset : Nat) (bytes : List Nat) (sendOk : Bool)
    (hR : st.isReady = true) (hT : st.transcriberSome = true) :
    (bytesToSamples bytes).length = bytes.length / 2 ∧
    (byteOffset % 2 = 0 → (bytesToSamples bytes).length ≤ spreadLimit →
      (aaiHandleMessageFallible spreadLimit true st byteOffset
          (ClientMsg.binary bytes)
        = Except.ok (AAIStepRes.mk
            (AAIState.mk true true
              (drainLoop (st.audioBuffer ++ bytesToSamples bytes)).2)
            ((drainLoop (st.audioBuffer ++ bytesToSamples bytes)).1.map
              AAIAction.sendAudio)
            false)) ∧
      ((sentFrames ((drainLoop (st.audioBuffer ++
            bytesToSamples bytes)).1.map AAIAction.sendAudio)).flatten
          ++ (drainLoop (st.audioBuffer ++ bytesToSamples bytes)).2
        = st.audioBuffer ++ bytesToSamples bytes)) ∧
    (byteOffset % 2 ≠ 0 →
      aaiHandleMessageFallible spreadLimit sendOk st byteOffset
          (ClientMsg.binary bytes)
        = Except.error
            "RangeError: start offset of Int16Array should be a multiple of 2") ∧
    (byteOffset % 2 = 0 → spreadLimit < (bytesToSamples bytes).length →
      aaiHandleMessageFallible spreadLimit sendOk st byteOffset
          (ClientMsg.binary bytes)
        = Except.error "RangeError: too many arguments") ∧
    (∀ res, aaiHandleMessageFallible spreadLimit sendOk st byteOffset
          (ClientMsg.binary bytes) = Except.ok res →
      res.actions.filter isSendClientAAI = []) := by
  have hg : ¬(st.isReady = false ∨ st.transcriberSome = false) := by
    simp [hR, hT]
  refine ⟨bytesToSamples_length bytes, ?_, ?_, ?_, ?_⟩
  · intro ha hl
    constructor
    · simp [aaiHandleMessageFallible, hg, int16ArrayView, ha, pushSpread,
        hl, sendChunks, hR, hT]
    · rw [sentFrames_map]
      exact (drainLoop_spec (st.audioBuffer ++ bytesToSamples bytes)).1
  · intro ha
    simp [aaiHandleMessageFallible, hg, int16ArrayView, ha]
  · intro ha hl
    simp [aaiHandleMessageFallible, hg, int16ArrayView, ha, pushSpread,
      Nat.not_le.mpr hl]
  · intro res hres
    by_cases ha : byteOffset % 2 = 0
    · by_cases hl : (bytesToSamples bytes).length ≤ spreadLimit
      · rw [aaiHandleMessageFallible_refines spreadLimit sendOk st byteOffset
            (ClientMsg.binary bytes) ha
            (by intro bs hbs; cases hbs; exact hl)] at hres
        have hres2 : aaiHandleClientMessage sendOk st
            (ClientMsg.binary bytes) = res := by
          exact Except.ok.inj hres
        subst hres2
        cases sendOk with
        | false => simp [aaiHandleClientMessage, hg, sendChunks]
        | true =>
          simp [aaiHandleClientMessage, hg, sendChunks,
            filter_sendClient_map_sendAudio]
      · rw [show aaiHandleMessageFallible spreadLimit sendOk st byteOffset
              (ClientMsg.binary bytes)
            = Except.error "RangeError: too many arguments" from by
          simp [aaiHandleMessageFallible, hg, int16ArrayView, ha,
            pushSpread, hl]] at hres
        exact absurd hres (by simp)
    · rw [show aaiHandleMessageFallible spreadLimit sendOk st byteOffset
            (ClientMsg.binary bytes)
          = Except.error
              "RangeError: start offset of Int16Array should be a multiple of 2"
          from by
        simp [aaiHandleMessageFallible, hg, int16ArrayView, ha]] at hres
      exact absurd hres (by simp)

theorem handler_no_fault_truncates_witness :
    (aaiReadyInit.isReady = true ∧ aaiReadyInit.transcriberSome = true) ∧
    ((bytesToSamples [1, 2, 3]).length = ([1, 2, 3] : List Nat).length / 2 ∧
     (aaiHandleMessageFallible 4 true aaiReadyInit 0
         (ClientMsg.binary [1, 2, 3])
       = Except.ok (AAIStepRes.mk
           (AAIState.mk true true
             (drainLoop (aaiReadyInit.audioBuffer ++
               bytesToSamples [1, 2, 3])).2)
           ((drainLoop (aaiReadyInit.audioBuffer ++
               bytesToSamples [1, 2, 3])).1.map AAIAction.sendAudio)
           false)) ∧
     aaiHandleMessageFallible 4 false aaiReadyInit 1
         (ClientMsg.binary [1, 2])
       = Except.error
           "RangeError: start offset of Int16Array should be a multiple of 2" ∧
     aaiHandleMessageFallible 0 false aaiReadyInit 0
         (ClientMsg.binary [1, 2])
       = Except.error "RangeError: too many arguments") :=
  ⟨⟨rfl, rfl⟩,
   (handler_no_fault_truncates 4 aaiReadyInit 0 [1, 2, 3] true
      rfl rfl).1,
   ((handler_no_fault_truncates 4 aaiReadyInit 0 [1, 2, 3] true
      rfl rfl).2.1 (by decide) (by decide)).1,
   (handler_no_fault_truncates 4 aaiReadyInit 1 [1, 2] false
      rfl rfl).2.2.1 (by decide),
   (handler_no_fault_truncates 0 aaiReadyInit 0 [1, 2] false
      rfl rfl).2.2.2.1 (by decide) (by decide)⟩

/-- C10: in the AWS Transcribe relay, a transcript result whose text
trims to the empty string is never forwarded: the result loop sends no
message for it, whether the result is final or not and whether the
client is open or not. -/
theorem trim_guard_empty_not_forwarded (r : TResult) (clientOpen : Bool)
    (h : jsTrim r.transcript = "") :
    processResult clientOpen r = [] := by
  cases hp : r.IsPartial <;> simp [processResult, hp, h]

theorem trim_guard_empty_not_forwarded_witness :
    jsTrim "   " = "" ∧
    processResult true (TResult.mk false "   " none) = [] :=
  ⟨by decide, trim_guard_empty_not_forwarded (TResult.mk false "   " none)
    true (by decide)⟩
